import Mathlib

/-!
# Verification of the directory-indexer core against its specification

Shallow embedding of the Python sources of `snorkem/directory-indexer`:

* `src/src/core/scanner.py` (`DirectoryScanner.scan` / `_process_file`),
* `src/src/core/tree_builder.py` (`DirectoryTreeBuilder.build_tree`),
* `src/Backups/directory_indexer_original.py` (`build_directory_tree`,
  the embedded viewer's `DataService` with `_getFolderInline`,
  `_getFilesInline`, `_getFolderFromDB`, `_getFilesFromDB`,
  and `compareWithFoldersFirst`),
* `src/src/core/database.py` (`DatabaseManager.create_database`),
* `src/directory_indexer.py` (mode selection in `main` / `run_json_mode`),
* `src/src/models/file_info.py` (`FileInfo.to_dict`).

Modelling conventions:

* Relative paths are represented by their forward-slash segment lists
  (`List String`); a path string is recovered with `String.intercalate "/"`.
  Segments of real paths are nonempty, contain no `'/'` and are never `"."`;
  the places where the code manipulates raw path strings (the SQL queries of
  the relational backend) operate on the joined strings.
* Filesystem effects (`os.walk`, `Path.stat`) are modelled by an explicit
  filesystem value: a sequence of entries, each a file (with the outcome of
  `stat` recorded as a `readable` flag and its symlink status) or a
  directory (with an `openable` flag for whether `scandir` succeeds, a
  symlink flag, and its children).  `os.walk` is called with default
  arguments, so symlinked directories are listed but not descended into and
  directories whose `scandir` fails are skipped silently.
* Display-only string fields that require floating point or clock access
  (`size_human`, `modified`, `created`, `icon`) are either omitted from the
  scanner model or supplied through explicit formatting parameters; they play
  no role in any aggregate the claims constrain.
-/

/-! ## Python `Path.suffix` and the extension sentinel (scanner.py line 128) -/

/-- Split a character list at its last `'.'`: `splitLastDot cs = some (b, a)`
when `cs = b ++ '.' :: a` and `a` contains no dot. -/
def splitLastDot : List Char → Option (List Char × List Char)
  | [] => none
  | c :: cs =>
    match splitLastDot cs with
    | some (b, a) => some (c :: b, a)
    | none => if c = '.' then some ([], cs) else none

/-- Python `PurePath.suffix`: the substring from the last dot on, but only
when that dot is neither the first nor the last character of the name. -/
def pySuffix (name : String) : String :=
  match splitLastDot name.data with
  | some (b, a) => if b ≠ [] ∧ a ≠ [] then String.mk ('.' :: a) else ""
  | none => ""

/-- `str.lower()` / `String.prototype.toLowerCase()`, implemented on the
character list (so that concrete instances evaluate inside the kernel). -/
def pyLower (s : String) : String :=
  String.mk (s.data.map Char.toLower)

/-- `filepath.suffix.lower() or '(none)'` from `_process_file`. -/
def pyExtension (name : String) : String :=
  let s := pyLower (pySuffix name)
  if s = "" then "(none)" else s

/-! ## File records -/

/-- One scanned file, with its path relative to the scan root given as the
directory's segment list (`dirParts = []` for a file directly under the
root).  This carries the fields of the scanner's `file_data` dictionary that
the claims constrain (`name`, `relative_path = dirParts ++ [name]`,
`directory = dirParts`, `size_bytes`, `extension`). -/
structure FileRec where
  name : String
  dirParts : List String
  size_bytes : Nat
  extension : String
  deriving Repr, DecidableEq

/-- `relative_path` of a record, as a string. -/
def FileRec.relString (f : FileRec) : String :=
  String.intercalate "/" (f.dirParts ++ [f.name])

/-- `directory` of a record as stored in the `files` table:
`str(parent_dir.relative_to(root_path))`, which is `"."` for a file directly
under the root and the slash-joined segments otherwise. -/
def FileRec.dirString (f : FileRec) : String :=
  if f.dirParts.isEmpty then "." else String.intercalate "/" f.dirParts

/-! ## Filesystem model and `os.walk` (scanner.py lines 56-67) -/

/-- A directory listing: a sequence of entries.  A `file` entry records the
outcome of `Path.stat` on it (`readable`, following symlinks) and whether the
entry itself is a symbolic link; a `dir` entry records whether `scandir`
succeeds on it (`openable`) and whether it is a symbolic link. -/
inductive FS where
  | nil : FS
  | file (name : String) (size : Nat) (readable isLink : Bool) (rest : FS) : FS
  | dir (name : String) (openable isLink : Bool) (children : FS) (rest : FS) : FS
  deriving Repr, DecidableEq

/-- A file yielded by the walk: the directory segment list it was found in,
its name, its size and whether `stat` succeeds on it. -/
structure WalkedFile where
  dirParts : List String
  name : String
  size : Nat
  readable : Bool
  deriving Repr, DecidableEq

/-- The `filenames` portion of one `os.walk` triple: the file entries of a
listing, in listing order. -/
def directFiles (pref : List String) : FS → List WalkedFile
  | .nil => []
  | .file n s r _ rest => ⟨pref, n, s, r⟩ :: directFiles pref rest
  | .dir _ _ _ _ rest => directFiles pref rest

/-- The files yielded by `os.walk` strictly below the given listing: each
subdirectory is descended into in listing order, skipping symlinked
directories (`followlinks=False`) and directories whose `scandir` fails
(default `onerror=None` swallows the error, skipping the subtree silently). -/
def walkSub (pref : List String) : FS → List WalkedFile
  | .nil => []
  | .file _ _ _ _ rest => walkSub pref rest
  | .dir n op lk children rest =>
    (if lk = false ∧ op = true then
      directFiles (pref ++ [n]) children ++ walkSub (pref ++ [n]) children
    else []) ++ walkSub pref rest

/-- All files yielded by `os.walk` over a directory whose listing is `es`:
the directory's own triple first (top-down walk), then its subtrees. -/
def walkFS (pref : List String) (es : FS) : List WalkedFile :=
  directFiles pref es ++ walkSub pref es

/-! ## The scanner (`DirectoryScanner.scan` / `_process_file`) -/

/-- The scanner's accumulated state and final result: `files_data`,
`total_size`, `error_count` and the `defaultdict` extension statistics
(mapping every extension to its `(count, size)` pair, untouched extensions
mapping to `(0, 0)`). -/
structure ScanResultM where
  files_data : List FileRec
  total_size : Nat
  error_count : Nat
  extension_stats : String → Nat × Nat

/-- The record `_process_file` builds for a readable file. -/
def mkFileRec (wf : WalkedFile) : FileRec :=
  { name := wf.name
    dirParts := wf.dirParts
    size_bytes := wf.size
    extension := pyExtension wf.name }

/-- `_process_file`: on a successful `stat`, append the record and update
`total_size` and the extension statistics; on `PermissionError`/`OSError`,
increment `error_count` and continue. -/
def processFile (st : ScanResultM) (wf : WalkedFile) : ScanResultM :=
  if wf.readable then
    { files_data := st.files_data ++ [mkFileRec wf]
      total_size := st.total_size + wf.size
      error_count := st.error_count
      extension_stats := fun e =>
        if e = pyExtension wf.name then
          ((st.extension_stats e).1 + 1, (st.extension_stats e).2 + wf.size)
        else st.extension_stats e }
  else
    { st with error_count := st.error_count + 1 }

/-- The body of `scan` once the root checks passed: fold `_process_file`
over the files yielded by `os.walk` (nothing at all is yielded when the
root's own `scandir` fails). -/
def scanDir (openable : Bool) (es : FS) : ScanResultM :=
  (if openable then walkFS [] es else []).foldl processFile
    ⟨[], 0, 0, fun _ => (0, 0)⟩

/-- The root argument of a scan: missing, existing but not a directory, or a
directory with its openability and listing. -/
inductive RootArg where
  | absent : RootArg
  | notDir : RootArg
  | presentDir (openable : Bool) (entries : FS) : RootArg
  deriving DecidableEq

/-- The exceptions `scan` raises. -/
inductive ScanErr where
  | fileNotFound
  | notADirectory
  deriving DecidableEq

/-- `DirectoryScanner.scan`: raise `FileNotFoundError` when the root does
not exist, `NotADirectoryError` when it is not a directory, otherwise walk
and fold. -/
def scanFS : RootArg → Except ScanErr ScanResultM
  | .absent => .error .fileNotFound
  | .notDir => .error .notADirectory
  | .presentDir op es => .ok (scanDir op es)

/-! ## Whole-tree file counts (to state the scan-completeness claim) -/

/-- Like `walkSub`, but descending into every subdirectory regardless of
openability and symlink status: the files strictly below a listing. -/
def allSub (pref : List String) : FS → List WalkedFile
  | .nil => []
  | .file _ _ _ _ rest => allSub pref rest
  | .dir n _ _ children rest =>
    (directFiles (pref ++ [n]) children ++ allSub (pref ++ [n]) children) ++
      allSub pref rest

/-- Every file entry in the tree, regardless of readability, openability of
enclosing directories, or symlinks. -/
def allFilesFS (pref : List String) (es : FS) : List WalkedFile :=
  directFiles pref es ++ allSub pref es

/-- `N`: the number of readable files anywhere in the tree. -/
def readableFileCount (es : FS) : Nat :=
  ((allFilesFS [] es).filter (·.readable)).length

/-- `M`: the number of unreadable entries anywhere in the tree — files whose
`stat` fails plus directories whose `scandir` fails. -/
def unreadableEntryCount : FS → Nat
  | .nil => 0
  | .file _ _ r _ rest => (if r then 0 else 1) + unreadableEntryCount rest
  | .dir _ op _ children rest =>
    (if op then 0 else 1) + unreadableEntryCount children + unreadableEntryCount rest

/-- Whether every directory in the tree is openable and no entry is a
symlink (the regime in which the walk reaches every file). -/
def fullyAccessible : FS → Bool
  | .nil => true
  | .file _ _ _ lk rest => !lk && fullyAccessible rest
  | .dir _ op lk children rest => op && !lk && fullyAccessible children && fullyAccessible rest

/-! ## Transformations used to state the symlink claim -/

/-- Remove every symlinked directory entry (with its whole subtree) from the
filesystem. -/
def pruneLinkedDirs : FS → FS
  | .nil => .nil
  | .file n s r lk rest => .file n s r lk (pruneLinkedDirs rest)
  | .dir n op lk children rest =>
    if lk then pruneLinkedDirs rest
    else .dir n op false (pruneLinkedDirs children) (pruneLinkedDirs rest)

/-- Clear the symlink flag of every file entry, leaving everything else
unchanged. -/
def clearFileLinks : FS → FS
  | .nil => .nil
  | .file n s r _ rest => .file n s r false (clearFileLinks rest)
  | .dir n op lk children rest => .dir n op lk (clearFileLinks children) (clearFileLinks rest)

/-! ## The directory tree (`tree_builder.py` and the original
`build_directory_tree`) -/

/-- One folder node: name, relative path segments, insertion-ordered child
map, `file_count`, `total_size`, and the directly contained files. -/
inductive TreeNode where
  | node (name : String) (path : List String)
      (children : List (String × TreeNode))
      (file_count : Nat) (total_size : Nat) (files : List FileRec) : TreeNode

def TreeNode.name : TreeNode → String
  | .node nm _ _ _ _ _ => nm

def TreeNode.path : TreeNode → List String
  | .node _ p _ _ _ _ => p

def TreeNode.children : TreeNode → List (String × TreeNode)
  | .node _ _ cs _ _ _ => cs

def TreeNode.file_count : TreeNode → Nat
  | .node _ _ _ fc _ _ => fc

def TreeNode.total_size : TreeNode → Nat
  | .node _ _ _ _ ts _ => ts

def TreeNode.files : TreeNode → List FileRec
  | .node _ _ _ _ _ fls => fls

/-- Python `part in current['children']` / `current['children'][part]`. -/
def lookupChild (cs : List (String × TreeNode)) (key : String) : Option TreeNode :=
  match cs with
  | [] => none
  | (k, v) :: rest => if k = key then some v else lookupChild rest key

/-- Writing `current['children'][part] = t`: replace in place when the key
exists, append otherwise (Python dicts preserve insertion order). -/
def updateChild (cs : List (String × TreeNode)) (key : String) (t : TreeNode) :
    List (String × TreeNode) :=
  match cs with
  | [] => [(key, t)]
  | (k, v) :: rest =>
    if k = key then (key, t) :: rest else (k, v) :: updateChild rest key t

/-- A freshly created folder node (`file_count` and `total_size` start at 0). -/
def emptyNode (name : String) (path : List String) : TreeNode :=
  .node name path [] 0 0 []

/-- Walk/create folder nodes along `remaining` (the path segments excluding
the filename), then attach the file at the final folder, incrementing only
that folder's `file_count`/`total_size` — exactly the loop body of
`build_tree`: intermediate folders are created but not incremented. -/
def insertDeep (t : TreeNode) (sofar remaining : List String) (f : FileRec) :
    TreeNode :=
  match t, remaining with
  | .node nm p cs fc ts fls, [] =>
    .node nm p cs (fc + 1) (ts + f.size_bytes) (fls ++ [f])
  | .node nm p cs fc ts fls, part :: rest =>
    let child :=
      match lookupChild cs part with
      | some c => c
      | none => emptyNode part (sofar ++ [part])
    .node nm p (updateChild cs part (insertDeep child (sofar ++ [part]) rest f)) fc ts fls

/-- `tree['file_count'] += 1; tree['total_size'] += file_info['size_bytes']`
on the root node. -/
def bumpRoot (t : TreeNode) (f : FileRec) : TreeNode :=
  match t with
  | .node nm p cs fc ts fls => .node nm p cs (fc + 1) (ts + f.size_bytes) fls

/-- One iteration of `DirectoryTreeBuilder.build_tree`'s loop
(`src/src/core/tree_builder.py`): a single-segment relative path attaches the
file at the root; otherwise the file is attached deep and the root counters
are updated — the intermediate ancestors are not. -/
def insertFileNew (t : TreeNode) (f : FileRec) : TreeNode :=
  if f.dirParts = [] then insertDeep t [] [] f
  else bumpRoot (insertDeep t [] f.dirParts f) f

/-- `DirectoryTreeBuilder.build_tree`: fold the loop body over the file list,
starting from the synthetic root (`rootName` is `Path(root_path).name or
str(root_path)`). -/
def build_tree (rootName : String) (files : List FileRec) : TreeNode :=
  files.foldl insertFileNew (.node rootName [] [] 0 0 [])

/-- One iteration of the original `build_directory_tree`'s loop
(`src/Backups/directory_indexer_original.py` lines 1190-1224): the root
branch tests `rel_path == '.'` (never true for a real file, whose relative
path is its name), so every file goes through the deep branch and the root
counters are then updated once more — double-counting files that live
directly under the root. -/
def insertFileOrig (t : TreeNode) (f : FileRec) : TreeNode :=
  if f.relString = "." then insertDeep t [] [] f
  else bumpRoot (insertDeep t [] f.dirParts f) f

/-- The original `build_directory_tree`. -/
def build_directory_tree (rootName : String) (files : List FileRec) : TreeNode :=
  files.foldl insertFileOrig (.node rootName [] [] 0 0 [])

/-- Navigate to the node at a path (`node = node.children[part]` per
segment), `none` when a segment is missing. -/
def getNode (t : TreeNode) : List String → Option TreeNode
  | [] => some t
  | p :: rest =>
    match lookupChild t.children p with
    | some c => getNode c rest
    | none => none

/-! ## Data Access Layer — in-memory backend (`_getFolderInline`,
`_getFilesInline`) -/

/-- The result shape of `_getFolderInline`. -/
structure InlineFolder where
  name : String
  path : List String
  fileCount : Nat
  totalSize : Nat
  children : List String
  files : List FileRec
  deriving Repr, DecidableEq

/-- `_getFolderInline`: walk the tree by the path's segments and surface the
node's fields (`children` are the child-map keys in insertion order). -/
def getFolderInline (tree : TreeNode) (path : List String) : Option InlineFolder :=
  (getNode tree path).map fun n =>
    ⟨n.name, path, n.file_count, n.total_size, n.children.map Prod.fst, n.files⟩

/-! ## Sorting (`compareWithFoldersFirst`, `_sortItems`) -/

/-- A listing entry: an immediate child folder (with its aggregates and its
path string) or a direct file. -/
inductive Entry where
  | folderE (name : String) (path : String) (fileCount totalSize : Nat) : Entry
  | fileE (f : FileRec) : Entry
  deriving Repr, DecidableEq

def Entry.isFolder : Entry → Bool
  | .folderE .. => true
  | .fileE _ => false

def Entry.entryName : Entry → String
  | .folderE nm _ _ _ => nm
  | .fileE f => f.name

/-- The numeric value the comparator uses for the size column:
`a.size_bytes || a.totalSize || 0` — a file's byte size, a folder's total
size (the falsy-chaining yields the same number). -/
def Entry.sizeKey : Entry → Nat
  | .folderE _ _ _ ts => ts
  | .fileE f => f.size_bytes

/-- The sortable columns the claims constrain: `name` (a string column) and
`size`/`size_bytes`. -/
inductive SortColumn where
  | nameCol
  | sizeCol
  deriving Repr, DecidableEq

/-- `valA < valB → ascending ? -1 : 1; valA > valB → ascending ? 1 : -1;
else 0`. -/
def cmp3 {β : Type} [LinearOrder β] (ascending : Bool) (x y : β) : Int :=
  if x < y then (if ascending then -1 else 1)
  else if y < x then (if ascending then 1 else -1)
  else 0

/-- The column comparator: string values are lowercased before comparison
(JS `<`/`>` on strings is lexicographic code-unit comparison, embedded as
the lexicographic order on the character lists). -/
def cmpColumn (col : SortColumn) (ascending : Bool) (a b : Entry) : Int :=
  match col with
  | .nameCol => cmp3 ascending (pyLower a.entryName).data (pyLower b.entryName).data
  | .sizeCol => cmp3 ascending a.sizeKey b.sizeKey

/-- `compareWithFoldersFirst(a, b, column, ascending, foldersFirst)`. -/
def compareWithFoldersFirst (col : SortColumn) (ascending foldersFirst : Bool)
    (a b : Entry) : Int :=
  if foldersFirst && a.isFolder && !b.isFolder then -1
  else if foldersFirst && !a.isFolder && b.isFolder then 1
  else cmpColumn col ascending a b

/-- Stable insertion: place `a` before the first `b` with `cmp a b ≤ 0`. -/
def insertJS {α : Type} (cmp : α → α → Int) (a : α) : List α → List α
  | [] => [a]
  | b :: l => if cmp a b ≤ 0 then a :: b :: l else b :: insertJS cmp a l

/-- `Array.prototype.sort(comparator)`.  ECMAScript requires the sort to be
stable and consistent with the comparator; for a comparator that induces a
total preorder the stable sorted permutation is unique, so stable insertion
sort is a faithful embedding of the observable behavior. -/
def sortJS {α : Type} (cmp : α → α → Int) : List α → List α
  | [] => []
  | a :: l => insertJS cmp a (sortJS cmp l)

/-- `_sortItems(items, sort)`: always sorts with `foldersFirst = false`. -/
def sortItems (col : SortColumn) (ascending : Bool) (items : List Entry) :
    List Entry :=
  sortJS (compareWithFoldersFirst col ascending false) items

/-- Contiguous-sublist test on character lists. -/
def charsInfix (q : List Char) : List Char → Bool
  | [] => q.isPrefixOf []
  | c :: t => q.isPrefixOf (c :: t) || charsInfix q t

/-- Case-insensitive JS `String.prototype.includes` on already-lowercased
strings: substring containment. -/
def strContainsSub (s q : String) : Bool :=
  charsInfix q.data s.data

/-- The options record of `getFiles` (defaults: sort by name ascending,
folders first, empty search, `limit = 1000`, `offset = 0`). -/
structure ListOpts where
  column : SortColumn := .nameCol
  ascending : Bool := true
  foldersFirst : Bool := true
  search : String := ""
  limit : Nat := 1000
  offset : Nat := 0

/-- The combine step shared by both backends: sort folders and files
separately (always with `foldersFirst = false`); when `foldersFirst` is
requested, concatenate the groups, otherwise re-sort the concatenation with
the plain column comparator. -/
def combineEntries (col : SortColumn) (ascending foldersFirst : Bool)
    (folders files : List Entry) : List Entry :=
  let foldersS := sortItems col ascending folders
  let filesS := sortItems col ascending files
  if foldersFirst then foldersS ++ filesS
  else sortJS (compareWithFoldersFirst col ascending false) (foldersS ++ filesS)

/-- The path string of a child of `path` named `nm`:
`path ? path + '/' + name : name`. -/
def childPathString (path : List String) (nm : String) : String :=
  if path = [] then nm else String.intercalate "/" path ++ "/" ++ nm

/-- `_getFilesInline(path, opts)`: direct files and immediate child folders
of the node at `path`, search-filtered, sorted, combined and paginated;
returns `(items, total)` with `total` the pre-pagination length. -/
def getFilesInline (tree : TreeNode) (path : List String) (opts : ListOpts) :
    List Entry × Nat :=
  match getFolderInline tree path with
  | none => ([], 0)
  | some folder =>
    let query := pyLower opts.search
    let files0 := folder.files.map Entry.fileE
    let files1 :=
      if opts.search ≠ "" then
        files0.filter fun e =>
          match e with
          | .fileE f =>
            strContainsSub (pyLower f.name) query ||
              strContainsSub (pyLower f.extension) query
          | .folderE .. => false
      else files0
    let folders0 := folder.children.map fun nm =>
      match getFolderInline tree (path ++ [nm]) with
      | some cf => Entry.folderE nm (childPathString path nm) cf.fileCount cf.totalSize
      | none => Entry.folderE nm (childPathString path nm) 0 0
    let folders1 :=
      if opts.search ≠ "" then
        folders0.filter fun e => strContainsSub (pyLower e.entryName) query
      else folders0
    let combined :=
      combineEntries opts.column opts.ascending opts.foldersFirst folders1 files1
    ((combined.drop opts.offset).take opts.limit, combined.length)

/-! ## Data Access Layer — relational backend (`_getFolderFromDB`,
`_getFilesFromDB`).  The `files` table row set is the scanned record list;
`directory` is the stored string (`"."` for root-level files, per
`str(parent_dir.relative_to(root_path))`).  SQLite's `ORDER BY` on text is
binary comparison, modelled by `String` order; `DISTINCT` keeps one row per
value; `LIKE p || '/%'` is modelled as the string-prefix test (path strings
are assumed free of SQL wildcard characters). -/

/-- The result shape of `_getFolderFromDB` (its `files` field is always
empty: "Will be populated by getFiles()"). -/
structure DBFolder where
  name : String
  path : String
  fileCount : Nat
  totalSize : Nat
  children : List String
  files : List FileRec
  deriving Repr, DecidableEq

/-- SQL `LIKE prefixPattern || '%'` for a wildcard-free pattern: the string
starts with it. -/
def strStartsWith (p s : String) : Bool :=
  p.data.isPrefixOf s.data

/-- `SUBSTR(d, n+1)`: drop the first `n` characters. -/
def strDrop (s : String) (n : Nat) : String :=
  String.mk (s.data.drop n)

/-- The segment of `d` up to (excluding) the first `'/'` — the
`SUBSTR`/`INSTR` child-name extraction of `_getFolderFromDB`. -/
def strUpToSlash (s : String) : String :=
  String.mk (s.data.takeWhile fun c => c != '/')

/-- JS `path.split('/').pop()`: the substring after the last `'/'` (the
whole string when it has none). -/
def lastSegment (s : String) : String :=
  String.mk ((s.data.reverse.takeWhile fun c => c != '/').reverse)

/-- `SELECT DISTINCT ... ORDER BY ... ASC` on a list of strings: one value
per group, in SQLite's binary text order (lexicographic on code points). -/
def sqlDistinctSorted (l : List String) : List String :=
  List.insertionSort (fun a b => a.data ≤ b.data) l.eraseDups

/-- `_getFolderFromDB(path)`. -/
def getFolderFromDB (rows : List FileRec) (path : String) : DBFolder :=
  let fileRows := rows.filter fun r => r.dirString = path
  let fileCount := fileRows.length
  let totalSize := (fileRows.map (·.size_bytes)).sum
  let children :=
    if path = "" then
      sqlDistinctSorted
        ((rows.map (·.dirString)).filter fun d =>
          d ≠ "" && !(d.data.contains '/'))
    else
      (sqlDistinctSorted
        (((rows.map (·.dirString)).filter fun d =>
            strStartsWith (path ++ "/") d).map
          fun d => strUpToSlash (strDrop d (path.length + 1)))).filter
        fun nm => nm ≠ ""
  let nm := if path = "" then "root" else lastSegment path
  ⟨nm, path, fileCount, totalSize, children, []⟩

/-- `_getFilesFromDB(path, opts)`. -/
def getFilesFromDB (rows : List FileRec) (path : String) (opts : ListOpts) :
    List Entry × Nat :=
  let query := pyLower opts.search
  let fileRows0 := rows.filter fun r => r.dirString = path
  let fileRows :=
    if opts.search ≠ "" then
      fileRows0.filter fun r =>
        strContainsSub (pyLower r.name) query ||
          strContainsSub (pyLower r.extension) query
    else fileRows0
  let items := fileRows.map Entry.fileE
  let folder := getFolderFromDB rows path
  let childFolderItems := folder.children.map fun childName =>
    let childPath := if path = "" then childName else path ++ "/" ++ childName
    let cf := getFolderFromDB rows childPath
    Entry.folderE childName childPath cf.fileCount cf.totalSize
  let folders :=
    if opts.search ≠ "" then
      childFolderItems.filter fun e => strContainsSub (pyLower e.entryName) query
    else childFolderItems
  let combined :=
    combineEntries opts.column opts.ascending opts.foldersFirst folders items
  ((combined.drop opts.offset).take opts.limit, combined.length)

/-! ## Mode selection (`directory_indexer.py` lines 319-332, `run_json_mode`
lines 92-106, `src/config/settings.py`) -/

/-- `DatabaseConfig.FILE_COUNT_THRESHOLD`. -/
def FILE_COUNT_THRESHOLD : Nat := 150000

/-- `DatabaseConfig.BATCH_SIZE`. -/
def BATCH_SIZE : Nat := 1000

/-- The observable outcome of the mode decision: which mode runs, whether
the "--json flag ignored" warning is printed, and whether `run_json_mode`
prints the large-dataset warning and asks for confirmation. -/
structure ModeDecision where
  useDatabase : Bool
  warnJsonIgnored : Bool
  jsonLargeWarnAndConfirm : Bool
  deriving Repr, DecidableEq

/-- `use_database = args.extdb or (file_count > THRESHOLD and not args.json)`;
the ignored-flag warning fires when database mode runs with `--json` set;
`run_json_mode` warns and asks to confirm when `file_count > THRESHOLD and
force_json`. -/
def decideMode (fileCount : Nat) (extdb json : Bool) : ModeDecision :=
  let useDb := extdb || (decide (FILE_COUNT_THRESHOLD < fileCount) && !json)
  { useDatabase := useDb
    warnJsonIgnored := useDb && json
    jsonLargeWarnAndConfirm :=
      !useDb && (decide (FILE_COUNT_THRESHOLD < fileCount) && json) }

/-! ## Relational store creation (`database.py`) -/

/-- A row of the `files` table: the ten explicitly inserted columns, in DDL
order (the `id` surrogate key is assigned by AUTOINCREMENT). -/
structure FileRow where
  name : String
  path : String
  relative_path : String
  directory : String
  size_bytes : Nat
  size_human : String
  extension : String
  modified : String
  created : String
  icon : String
  deriving Repr, DecidableEq

/-- A created table: its name and column list in DDL order. -/
structure TableDef where
  name : String
  columns : List String
  deriving Repr, DecidableEq

/-- The store `create_database` produces: schema (tables and indexes) plus
the row content of the three tables. -/
structure Store where
  tables : List TableDef
  indexes : List (String × String)
  metadata : List (String × String)
  ext_stats : List (String × Nat × Nat)
  files_rows : List FileRow
  deriving DecidableEq

/-- `range(0, len(files_data), batch_size)` slicing from `_insert_files`:
the consecutive batches handed to `executemany`. -/
def toBatches {α : Type} (bs : Nat) (l : List α) : List (List α) :=
  match l with
  | [] => []
  | x :: xs => (x :: xs.take (bs - 1)) :: toBatches bs (xs.drop (bs - 1))
termination_by l.length
decreasing_by
  simp only [List.length_cons]
  exact Nat.lt_succ_of_le (List.length_drop .. ▸ Nat.sub_le ..)

/-- `DatabaseManager.create_database`: any pre-existing store at the path is
removed first, then a fresh store is built — so the result ignores `prev`.
The four metadata rows are inserted in source order (`generated_date` is
`datetime.now()`, passed here as the explicit `now` argument); extension
statistics are inserted in dictionary order; file rows are inserted in
batches of `BATCH_SIZE`. -/
def create_database (prev : Option Store) (files_data : List FileRow)
    (total_size : Nat) (extension_stats : List (String × Nat × Nat))
    (root_path now : String) : Store :=
  let _ := prev
  { tables :=
      [⟨"files", ["id", "name", "path", "relative_path", "directory",
        "size_bytes", "size_human", "extension", "modified", "created",
        "icon"]⟩,
       ⟨"metadata", ["key", "value"]⟩,
       ⟨"extension_stats", ["extension", "count", "total_size"]⟩]
    indexes :=
      [("idx_extension", "extension"), ("idx_size", "size_bytes"),
       ("idx_modified", "modified"), ("idx_created", "created"),
       ("idx_name", "name"), ("idx_directory", "directory"),
       ("idx_directory_name", "directory, name"),
       ("idx_name_lower", "LOWER(name)"),
       ("idx_directory_lower", "LOWER(directory)")]
    metadata :=
      [("total_files", toString files_data.length),
       ("total_size", toString total_size),
       ("root_path", root_path),
       ("generated_date", now)]
    ext_stats := extension_stats
    files_rows := (toBatches BATCH_SIZE files_data).flatten }

/-! ## `FileInfo` (`src/src/models/file_info.py`) -/

/-- The `FileInfo` dataclass: name, root-relative path, size, extension and
the modified timestamp (epoch seconds). -/
structure FileInfo where
  name : String
  full_path : String
  size : Nat
  extension : String
  modified : Nat
  deriving Repr, DecidableEq

/-- `path_without_name`: `full_path.rsplit('/', 1)[0] if '/' in full_path
else ''`. -/
def FileInfo.path_without_name (fi : FileInfo) : String :=
  if fi.full_path.contains '/' then
    String.intercalate "/" (fi.full_path.splitOn "/").dropLast
  else ""

/-- The dictionary `FileInfo.to_dict` returns. -/
structure FileDictView where
  name : String
  path : String
  relative_path : String
  directory : String
  size_bytes : Nat
  size_human : String
  extension : String
  icon : String
  modified : String
  created : String
  deriving Repr, DecidableEq

/-- `FileInfo.to_dict`: the timestamp formatter (`datetime.fromtimestamp`
+ `strftime`), size formatter and icon lookup are passed explicitly. -/
def FileInfo.to_dict (fmtTime : Nat → String) (fmtSize : Nat → String)
    (iconOf : String → String) (fi : FileInfo) : FileDictView :=
  let modified_str := fmtTime fi.modified
  { name := fi.name
    path := fi.full_path
    relative_path := fi.full_path
    directory := fi.path_without_name
    size_bytes := fi.size
    size_human := fmtSize fi.size
    extension := fi.extension
    icon := iconOf fi.extension
    modified := modified_str
    created := modified_str }

/-! ## Lemmas about the scanner fold -/

theorem foldl_processFile_files (l : List WalkedFile) (st : ScanResultM) :
    (l.foldl processFile st).files_data
      = st.files_data ++ (l.filter (·.readable)).map mkFileRec := by
  induction l generalizing st with
  | nil => simp
  | cons wf l ih =>
    cases hw : wf.readable with
    | true => simp [List.foldl_cons, List.filter_cons, hw, ih, processFile]
    | false => simp [List.foldl_cons, List.filter_cons, hw, ih, processFile]

theorem foldl_processFile_total (l : List WalkedFile) (st : ScanResultM) :
    (l.foldl processFile st).total_size
      = st.total_size + ((l.filter (·.readable)).map (·.size)).sum := by
  induction l generalizing st with
  | nil => simp
  | cons wf l ih =>
    cases hw : wf.readable with
    | true =>
      rw [List.foldl_cons, ih]
      simp [processFile, hw, List.filter_cons]
      omega
    | false => simp [List.foldl_cons, List.filter_cons, hw, ih, processFile]

theorem foldl_processFile_errors (l : List WalkedFile) (st : ScanResultM) :
    (l.foldl processFile st).error_count
      = st.error_count + (l.filter (fun wf => !wf.readable)).length := by
  induction l generalizing st with
  | nil => simp
  | cons wf l ih =>
    cases hw : wf.readable with
    | true => simp [List.foldl_cons, List.filter_cons, hw, ih, processFile]
    | false =>
      rw [List.foldl_cons, ih]
      simp [processFile, hw, List.filter_cons]
      omega

theorem foldl_processFile_stats (l : List WalkedFile) (st : ScanResultM)
    (e : String) :
    ((l.foldl processFile st).extension_stats e).1
      = (st.extension_stats e).1 +
        ((l.filter (·.readable)).filter
          (fun wf => pyExtension wf.name = e)).length
    ∧ ((l.foldl processFile st).extension_stats e).2
      = (st.extension_stats e).2 +
        (((l.filter (·.readable)).filter
          (fun wf => pyExtension wf.name = e)).map (·.size)).sum := by
  induction l generalizing st with
  | nil => simp
  | cons wf l ih =>
    cases hw : wf.readable with
    | false => simp [List.foldl_cons, List.filter_cons, hw, ih, processFile]
    | true =>
      have hrec := ih (processFile st wf)
      by_cases he : pyExtension wf.name = e
      · subst he
        constructor
        · rw [List.foldl_cons, hrec.1]
          simp [processFile, hw, List.filter_cons]
          omega
        · rw [List.foldl_cons, hrec.2]
          simp [processFile, hw, List.filter_cons]
          omega
      · constructor
        · rw [List.foldl_cons, hrec.1]
          simp [processFile, hw, List.filter_cons, he, Ne.symm he]
        · rw [List.foldl_cons, hrec.2]
          simp [processFile, hw, List.filter_cons, he, Ne.symm he]

/-! ## Walk coverage under full accessibility -/

theorem walkSub_eq_allSub (es : FS) (h : fullyAccessible es = true)
    (pref : List String) : walkSub pref es = allSub pref es := by
  induction es generalizing pref with
  | nil => rfl
  | file n s r lk rest ih =>
    simp only [fullyAccessible, Bool.and_eq_true] at h
    simp [walkSub, allSub, ih h.2]
  | dir n op lk ch rest ihc ihr =>
    simp only [fullyAccessible, Bool.and_eq_true, Bool.not_eq_true'] at h
    obtain ⟨⟨⟨hop, hlk⟩, hch⟩, hrest⟩ := h
    simp [walkSub, allSub, hop, hlk, ihc hch, ihr hrest]

theorem unreadableEntryCount_eq_filter (es : FS) (h : fullyAccessible es = true)
    (pref : List String) :
    unreadableEntryCount es
      = ((allFilesFS pref es).filter fun wf => !wf.readable).length := by
  induction es generalizing pref with
  | nil => simp [unreadableEntryCount, allFilesFS, directFiles, allSub]
  | file n s r lk rest ih =>
    simp only [fullyAccessible, Bool.and_eq_true] at h
    have := ih h.2 pref
    simp only [allFilesFS, directFiles, allSub] at this ⊢
    cases r with
    | true => simp [unreadableEntryCount, this]
    | false =>
      simp [unreadableEntryCount, this, List.filter_append]
      omega
  | dir n op lk ch rest ihc ihr =>
    simp only [fullyAccessible, Bool.and_eq_true, Bool.not_eq_true'] at h
    obtain ⟨⟨⟨hop, hlk⟩, hch⟩, hrest⟩ := h
    have h1 := ihc hch (pref ++ [n])
    have h2 := ihr hrest pref
    simp only [allFilesFS, directFiles, allSub, List.filter_append,
      List.length_append] at h1 h2 ⊢
    simp [unreadableEntryCount, hop]
    omega

/-! ## Walk invariance under the symlink transformations -/

theorem directFiles_pruneLinkedDirs (es : FS) (pref : List String) :
    directFiles pref (pruneLinkedDirs es) = directFiles pref es := by
  induction es generalizing pref with
  | nil => rfl
  | file n s r lk rest ih => simp [pruneLinkedDirs, directFiles, ih]
  | dir n op lk ch rest ihc ihr =>
    cases lk <;> simp [pruneLinkedDirs, directFiles, ihr]

theorem walkSub_pruneLinkedDirs (es : FS) (pref : List String) :
    walkSub pref (pruneLinkedDirs es) = walkSub pref es := by
  induction es generalizing pref with
  | nil => rfl
  | file n s r lk rest ih => simp [pruneLinkedDirs, walkSub, ih]
  | dir n op lk ch rest ihc ihr =>
    cases lk with
    | true => simp [pruneLinkedDirs, walkSub, ihr]
    | false =>
      simp [pruneLinkedDirs, walkSub, ihr, ihc, directFiles_pruneLinkedDirs]

theorem directFiles_clearFileLinks (es : FS) (pref : List String) :
    directFiles pref (clearFileLinks es) = directFiles pref es := by
  induction es generalizing pref with
  | nil => rfl
  | file n s r lk rest ih => simp [clearFileLinks, directFiles, ih]
  | dir n op lk ch rest ihc ihr => simp [clearFileLinks, directFiles, ihr]

theorem walkSub_clearFileLinks (es : FS) (pref : List String) :
    walkSub pref (clearFileLinks es) = walkSub pref es := by
  induction es generalizing pref with
  | nil => rfl
  | file n s r lk rest ih => simp [clearFileLinks, walkSub, ih]
  | dir n op lk ch rest ihc ihr =>
    simp [clearFileLinks, walkSub, ihr, ihc, directFiles_clearFileLinks]

/-! ## Claim theorems about the scanner -/

/-- C9: `scan()` raises `FileNotFoundError` exactly when the root path does
not exist and `NotADirectoryError` exactly when it exists but is not a
directory; in both cases the result is an exception, so no records are
produced and nothing is written. -/
theorem scan_root_validation :
    (∀ r : RootArg, scanFS r = .error .fileNotFound ↔ r = .absent)
    ∧ (∀ r : RootArg, scanFS r = .error .notADirectory ↔ r = .notDir)
    ∧ (∀ r : RootArg, ∀ res, scanFS r = .error res →
        ∀ out, scanFS r ≠ .ok out) := by
  refine ⟨?_, ?_, ?_⟩
  · intro r; cases r <;> simp [scanFS]
  · intro r; cases r <;> simp [scanFS]
  · intro r res herr out
    cases r <;> simp_all [scanFS]

/-- C4: after a scan, `total_size` is the sum of `size_bytes` over the
returned records, and for every extension the statistics entry is exactly
the count and summed size of the returned records with that extension —
all accumulated in the single `_process_file` pass. -/
theorem scan_aggregate_consistency (op : Bool) (es : FS) :
    (scanDir op es).total_size
      = ((scanDir op es).files_data.map (·.size_bytes)).sum
    ∧ ∀ ext : String,
        ((scanDir op es).extension_stats ext).1
          = ((scanDir op es).files_data.filter
              (fun r => r.extension = ext)).length
        ∧ ((scanDir op es).extension_stats ext).2
          = (((scanDir op es).files_data.filter
              (fun r => r.extension = ext)).map (·.size_bytes)).sum := by
  have hfiles := foldl_processFile_files
    (if op then walkFS [] es else []) ⟨[], 0, 0, fun _ => (0, 0)⟩
  have htotal := foldl_processFile_total
    (if op then walkFS [] es else []) ⟨[], 0, 0, fun _ => (0, 0)⟩
  have hmap : ∀ l : List WalkedFile,
      ((l.map mkFileRec).map (·.size_bytes)) = l.map (·.size) := by
    intro l; rw [List.map_map]; rfl
  have hfilter : ∀ (l : List WalkedFile) (ext : String),
      (l.map mkFileRec).filter (fun r => r.extension = ext)
        = (l.filter (fun wf => pyExtension wf.name = ext)).map mkFileRec := by
    intro l ext
    rw [List.filter_map]
    rfl
  constructor
  · rw [scanDir, htotal, hfiles]
    simp [hmap]
  · intro ext
    have hstats := foldl_processFile_stats
      (if op then walkFS [] es else []) ⟨[], 0, 0, fun _ => (0, 0)⟩ ext
    constructor
    · rw [scanDir, hstats.1, hfiles]
      simp [hfilter]
    · rw [scanDir, hstats.2, hfiles]
      simp [hfilter, hmap]

/-- C3 (amended): the scan returns exactly one record per readable file in a
traversed directory and counts exactly the unreadable files of traversed
directories in `error_count`; a directory that cannot be opened is skipped
with its whole subtree and no counter is incremented for it.  When every
directory is openable and nothing is a symlink, the record count is the
number of readable files and `error_count` the number of unreadable
entries. -/
theorem scan_skip_accounting (op : Bool) (es : FS) :
    (scanDir op es).files_data
      = ((if op then walkFS [] es else []).filter (·.readable)).map mkFileRec
    ∧ (scanDir op es).error_count
      = ((if op then walkFS [] es else []).filter
          (fun wf => !wf.readable)).length
    ∧ (op = true → fullyAccessible es = true →
        (scanDir op es).files_data.length = readableFileCount es
        ∧ (scanDir op es).error_count = unreadableEntryCount es) := by
  have hfiles := foldl_processFile_files
    (if op then walkFS [] es else []) ⟨[], 0, 0, fun _ => (0, 0)⟩
  have herr := foldl_processFile_errors
    (if op then walkFS [] es else []) ⟨[], 0, 0, fun _ => (0, 0)⟩
  refine ⟨by rw [scanDir, hfiles]; rfl, by rw [scanDir, herr]; simp, ?_⟩
  intro hop hacc
  subst hop
  have hwalk : walkFS [] es = allFilesFS [] es := by
    rw [walkFS, allFilesFS, walkSub_eq_allSub es hacc]
  constructor
  · rw [scanDir, hfiles]
    simp only [if_pos, hwalk, readableFileCount, List.length_append,
      List.length_map, List.nil_append]
  · rw [scanDir, herr]
    simp only [if_pos, hwalk]
    rw [unreadableEntryCount_eq_filter es hacc []]
    omega

/-- Witness for `scan_skip_accounting` at a one-file filesystem. -/
def fsW : FS := .file "a.txt" 10 true false .nil

theorem scan_skip_accounting_witness :
    fullyAccessible fsW = true
    ∧ (scanDir true fsW).files_data.length = readableFileCount fsW := by
  exact ⟨by decide, ((scan_skip_accounting true fsW).2.2 rfl (by decide)).1⟩

/-- The filesystem refuting C3 as stated: an unopenable directory holding
one readable and one unreadable file. -/
def fsC3 : FS :=
  .dir "locked" false false
    (.file "x.txt" 7 true false (.file "y.txt" 3 false false .nil)) .nil

/-- C3 counterexample: on `fsC3` the scan returns 0 records although the
tree has 1 readable file, and reports 0 errors although it has 2 unreadable
entries — the unopenable directory's subtree is skipped with no counter
increment, refuting both "exactly N FileRecords" and "skipped/error count
≥ M". -/
theorem scan_skip_counter_missing :
    ¬ ((scanDir true fsC3).files_data.length = readableFileCount fsC3
       ∧ unreadableEntryCount fsC3 ≤ (scanDir true fsC3).error_count) := by
  decide

/-- C7 (amended): symlinked directories are never traversed — removing them
(with their entire subtrees) does not change the scan result — but symlinked
files are not skipped: the scan result is insensitive to the symlink flag of
file entries, which are stat'ed through the link and recorded like any other
file. -/
theorem scanner_symlink_behavior :
    (∀ (op : Bool) (es : FS), scanDir op (pruneLinkedDirs es) = scanDir op es)
    ∧ (∀ (op : Bool) (es : FS), scanDir op (clearFileLinks es) = scanDir op es) := by
  constructor
  · intro op es
    rw [scanDir, scanDir, walkFS, walkFS, directFiles_pruneLinkedDirs,
      walkSub_pruneLinkedDirs]
  · intro op es
    rw [scanDir, scanDir, walkFS, walkFS, directFiles_clearFileLinks,
      walkSub_clearFileLinks]

/-- A filesystem whose only entry is a symlinked (link target readable)
file. -/
def fsC7 : FS := .file "link.txt" 5 true true .nil

/-- C7 counterexample: scanning a directory whose only entry is a symlinked
file produces a `FileRecord` for it — `filepath.stat()` follows the link, so
a symlinked file is not skipped, refuting "no FileRecord in the result
corresponds to a symbolic link". -/
theorem symlinked_file_is_recorded :
    (scanDir true fsC7).files_data = [⟨"link.txt", [], 5, ".txt"⟩] := by
  decide

/-! ## The specification's concrete three-file scenario -/

def recA : FileRec := ⟨"a.txt", [], 10, ".txt"⟩

def recB : FileRec := ⟨"b.txt", ["sub"], 20, ".txt"⟩

def recC : FileRec := ⟨"c.log", ["sub", "deep"], 5, ".log"⟩

/-- `root/a.txt` (10 B), `root/sub/b.txt` (20 B), `root/sub/deep/c.log`
(5 B), in scan order. -/
def scenarioFiles : List FileRec := [recA, recB, recC]

/-- C2 (the code evaluated at the spec's failing input): `build_tree`
increments `file_count`/`total_size` only at the file's immediate parent and
at the root — intermediate ancestors are created but never incremented — so
the `sub` node ends with `file_count = 1`, `total_size = 20` where the claim
requires 2 and 25, violating
`file_count == len(direct_files) + sum(child.file_count)` at `sub` (direct
1 + child `deep` 1 = 2 ≠ 1). -/
theorem build_tree_intermediate_not_incremented :
    (getNode (build_tree "root" scenarioFiles) ["sub"]).map TreeNode.file_count
      = some 1
    ∧ (getNode (build_tree "root" scenarioFiles) ["sub"]).map TreeNode.total_size
      = some 20
    ∧ (getNode (build_tree "root" scenarioFiles) ["sub", "deep"]).map
        TreeNode.file_count = some 1
    ∧ (getNode (build_tree "root" scenarioFiles) ["sub"]).map
        (fun t => t.files.length) = some 1
    ∧ (build_tree "root" scenarioFiles).file_count = 3
    ∧ (build_tree "root" scenarioFiles).total_size = 35
    ∧ ¬ ((getNode (build_tree "root" scenarioFiles) ["sub"]).map
          TreeNode.file_count = some 2
        ∧ (getNode (build_tree "root" scenarioFiles) ["sub"]).map
          TreeNode.total_size = some 25) := by
  decide

/-- C1 (both backends evaluated at the spec's scenario, folder path "" =
root): the in-memory backend reports `file_count = 4`, `total_size = 45`
(the original tree builder counts root-level files twice) with child set
`["sub"]`, while the relational backend reports `file_count = 0`,
`total_size = 0` (root files are stored with `directory = "."` but queried
with `directory = ''`) and child set `[".", "sub"]` (the `"."` directory has
no slash, so it passes the top-level-folder filter).  The two backends do
not agree on `file_count`, `total_size` or the child-folder set. -/
theorem backend_root_divergence :
    getFolderInline (build_directory_tree "root" scenarioFiles) []
      = some ⟨"root", [], 4, 45, ["sub"], [recA]⟩
    ∧ getFolderFromDB scenarioFiles ""
      = ⟨"root", "", 0, 0, [".", "sub"], []⟩
    ∧ (getFolderInline (build_directory_tree "root" scenarioFiles) []).map
        InlineFolder.fileCount
      ≠ some (getFolderFromDB scenarioFiles "").fileCount
    ∧ (getFolderInline (build_directory_tree "root" scenarioFiles) []).map
        InlineFolder.children
      ≠ some (getFolderFromDB scenarioFiles "").children := by
  decide

/-- C10: `FileInfo.to_dict` emits its formatted `modified` timestamp as the
`created` field (the conversion path through `FileInfo` does not preserve
the creation time) and its relative `full_path` as both `path` and
`relative_path` (the absolute path is not preserved). -/
theorem file_info_to_dict_created_path (ft : Nat → String)
    (fsz : Nat → String) (ic : String → String) (fi : FileInfo) :
    (FileInfo.to_dict ft fsz ic fi).created
      = (FileInfo.to_dict ft fsz ic fi).modified
    ∧ (FileInfo.to_dict ft fsz ic fi).created = ft fi.modified
    ∧ (FileInfo.to_dict ft fsz ic fi).path
      = (FileInfo.to_dict ft fsz ic fi).relative_path
    ∧ (FileInfo.to_dict ft fsz ic fi).relative_path = fi.full_path :=
  ⟨rfl, rfl, rfl, rfl⟩

/-- C5: the mode decision — `--extdb` forces database mode regardless of
size, overriding a simultaneous `--json` with a warning; otherwise database
mode is chosen exactly when the file count strictly exceeds the configured
threshold and `--json` is not set; and whenever JSON mode runs with a count
above the threshold (necessarily because `--json` forced it), the
large-dataset warning fires and confirmation is requested. -/
theorem mode_selection_policy (n : Nat) (extdb json : Bool) :
    (extdb = true → (decideMode n extdb json).useDatabase = true
      ∧ (json = true → (decideMode n extdb json).warnJsonIgnored = true))
    ∧ (extdb = false → json = false → FILE_COUNT_THRESHOLD < n →
        (decideMode n extdb json).useDatabase = true)
    ∧ (extdb = false → (json = true ∨ n ≤ FILE_COUNT_THRESHOLD) →
        (decideMode n extdb json).useDatabase = false)
    ∧ ((decideMode n extdb json).useDatabase = false →
        FILE_COUNT_THRESHOLD < n →
        (decideMode n extdb json).jsonLargeWarnAndConfirm = true)
    ∧ ((decideMode n extdb json).warnJsonIgnored = true
        ↔ extdb = true ∧ json = true) := by
  cases extdb <;> cases json <;>
    by_cases h : FILE_COUNT_THRESHOLD < n <;>
    simp_all [decideMode]

/-- Witness for `mode_selection_policy` at the spec's concrete scenario
count 250000 (above the threshold): no flags → database mode; `--json` →
JSON mode with the warning/confirmation. -/
theorem mode_selection_policy_witness :
    (decideMode 250000 false false).useDatabase = true
    ∧ (decideMode 250000 false true).useDatabase = false
    ∧ (decideMode 250000 false true).jsonLargeWarnAndConfirm = true := by
  refine ⟨(mode_selection_policy 250000 false false).2.1 rfl rfl (by decide),
    (mode_selection_policy 250000 false true).2.2.1 rfl (Or.inl rfl), ?_⟩
  exact (mode_selection_policy 250000 false true).2.2.2.1
    ((mode_selection_policy 250000 false true).2.2.1 rfl (Or.inl rfl))
    (by decide)

/-! ## Claim theorem about store creation -/

theorem toBatches_flatten {α : Type} (bs : Nat) :
    ∀ (n : Nat) (l : List α), l.length ≤ n → (toBatches bs l).flatten = l := by
  intro n
  induction n with
  | zero =>
    intro l hl
    have h0 : l = [] := List.eq_nil_of_length_eq_zero (Nat.le_zero.mp hl)
    subst h0
    simp [toBatches]
  | succ n ih =>
    intro l hl
    cases l with
    | nil => simp [toBatches]
    | cons x xs =>
      have hx : xs.length ≤ n := by simpa using hl
      have hd : (xs.drop (bs - 1)).length ≤ n := by
        rw [List.length_drop]
        omega
      rw [toBatches]
      simp only [List.flatten_cons]
      rw [ih (xs.drop (bs - 1)) hd]
      simp [List.take_append_drop]

/-- C8: `create_database` ignores any pre-existing store (it is deleted
first), creates exactly the tables `files`, `metadata` and
`extension_stats` with the claimed columns, all nine required indexes, the
four metadata keys in order, and inserts every file row exactly once in
input order (the batching is invisible in the row content) — so
regeneration from the same input (and clock reading) is deterministic. -/
theorem create_database_schema (prev prev' : Option Store)
    (files_data : List FileRow) (total_size : Nat)
    (extension_stats : List (String × Nat × Nat)) (root_path now : String) :
    create_database prev files_data total_size extension_stats root_path now
      = create_database prev' files_data total_size extension_stats root_path now
    ∧ (create_database prev files_data total_size extension_stats root_path
        now).tables
      = [⟨"files", ["id", "name", "path", "relative_path", "directory",
          "size_bytes", "size_human", "extension", "modified", "created",
          "icon"]⟩,
         ⟨"metadata", ["key", "value"]⟩,
         ⟨"extension_stats", ["extension", "count", "total_size"]⟩]
    ∧ (create_database prev files_data total_size extension_stats root_path
        now).indexes
      = [("idx_extension", "extension"), ("idx_size", "size_bytes"),
         ("idx_modified", "modified"), ("idx_created", "created"),
         ("idx_name", "name"), ("idx_directory", "directory"),
         ("idx_directory_name", "directory, name"),
         ("idx_name_lower", "LOWER(name)"),
         ("idx_directory_lower", "LOWER(directory)")]
    ∧ (create_database prev files_data total_size extension_stats root_path
        now).metadata
      = [("total_files", toString files_data.length),
         ("total_size", toString total_size),
         ("root_path", root_path),
         ("generated_date", now)]
    ∧ (create_database prev files_data total_size extension_stats root_path
        now).ext_stats = extension_stats
    ∧ (create_database prev files_data total_size extension_stats root_path
        now).files_rows = files_data := by
  refine ⟨rfl, rfl, rfl, rfl, rfl, ?_⟩
  exact toBatches_flatten BATCH_SIZE files_data.length files_data le_rfl

/-! ## Properties of the sort routine -/

theorem insertJS_perm {α : Type} (cmp : α → α → Int) (a : α) (l : List α) :
    (insertJS cmp a l).Perm (a :: l) := by
  induction l with
  | nil => exact List.Perm.refl _
  | cons b l ih =>
    by_cases h : cmp a b ≤ 0
    · rw [insertJS, if_pos h]
    · rw [insertJS, if_neg h]
      exact (ih.cons b).trans (List.Perm.swap a b l)

theorem sortJS_perm {α : Type} (cmp : α → α → Int) (l : List α) :
    (sortJS cmp l).Perm l := by
  induction l with
  | nil => exact List.Perm.refl _
  | cons a l ih =>
    rw [sortJS]
    exact (insertJS_perm cmp a (sortJS cmp l)).trans (ih.cons a)

theorem insertJS_pairwise {α : Type} (cmp : α → α → Int)
    (htot : ∀ x y : α, cmp x y ≤ 0 ∨ cmp y x ≤ 0)
    (htrans : ∀ x y z : α, cmp x y ≤ 0 → cmp y z ≤ 0 → cmp x z ≤ 0)
    (a : α) (l : List α) (hl : l.Pairwise fun x y => cmp x y ≤ 0) :
    (insertJS cmp a l).Pairwise fun x y => cmp x y ≤ 0 := by
  induction l with
  | nil => simp [insertJS]
  | cons b l ih =>
    rw [List.pairwise_cons] at hl
    by_cases h : cmp a b ≤ 0
    · rw [insertJS, if_pos h]
      refine List.Pairwise.cons ?_ (List.Pairwise.cons hl.1 hl.2)
      intro z hz
      rcases List.mem_cons.mp hz with rfl | hz'
      · exact h
      · exact htrans a b z h (hl.1 z hz')
    · rw [insertJS, if_neg h]
      have hba : cmp b a ≤ 0 := (htot a b).resolve_left h
      refine List.Pairwise.cons ?_ (ih hl.2)
      intro z hz
      have hz2 : z = a ∨ z ∈ l := by
        simpa using (insertJS_perm cmp a l).mem_iff.mp hz
      rcases hz2 with rfl | hz'
      · exact hba
      · exact hl.1 z hz'

theorem sortJS_pairwise {α : Type} (cmp : α → α → Int)
    (htot : ∀ x y : α, cmp x y ≤ 0 ∨ cmp y x ≤ 0)
    (htrans : ∀ x y z : α, cmp x y ≤ 0 → cmp y z ≤ 0 → cmp x z ≤ 0)
    (l : List α) :
    (sortJS cmp l).Pairwise fun x y => cmp x y ≤ 0 := by
  induction l with
  | nil => simp [sortJS]
  | cons a l ih =>
    rw [sortJS]
    exact insertJS_pairwise cmp htot htrans a _ ih

theorem insertJS_pairwiseQ {α : Type} (cmp : α → α → Int) (Q : α → α → Prop)
    (hside : ∀ x y : α, ¬ cmp x y ≤ 0 → Q y x)
    (a : α) (l : List α) (hal : ∀ b ∈ l, Q a b) (hl : l.Pairwise Q) :
    (insertJS cmp a l).Pairwise Q := by
  induction l with
  | nil => simp [insertJS]
  | cons b l ih =>
    rw [List.pairwise_cons] at hl
    by_cases h : cmp a b ≤ 0
    · rw [insertJS, if_pos h]
      exact List.Pairwise.cons hal (List.Pairwise.cons hl.1 hl.2)
    · rw [insertJS, if_neg h]
      refine List.Pairwise.cons ?_
        (ih (fun z hz => hal z (List.mem_cons_of_mem b hz)) hl.2)
      intro z hz
      have hz2 : z = a ∨ z ∈ l := by
        simpa using (insertJS_perm cmp a l).mem_iff.mp hz
      rcases hz2 with rfl | hz'
      · exact hside _ b h
      · exact hl.1 z hz'

/-- Stability of the embedded `Array.prototype.sort`: any pairwise property
of the input that can only be destroyed by reordering comparator ties is
preserved by the sort. -/
theorem sortJS_pairwiseQ {α : Type} (cmp : α → α → Int) (Q : α → α → Prop)
    (hside : ∀ x y : α, ¬ cmp x y ≤ 0 → Q y x)
    (l : List α) (hl : l.Pairwise Q) :
    (sortJS cmp l).Pairwise Q := by
  induction l with
  | nil => simp [sortJS]
  | cons a l ih =>
    rw [List.pairwise_cons] at hl
    rw [sortJS]
    refine insertJS_pairwiseQ cmp Q hside a _ ?_ (ih hl.2)
    intro b hb
    exact hl.1 b ((sortJS_perm cmp l).mem_iff.mp hb)

/-! ## Properties of the column comparator -/

theorem cmp3_le_iff {β : Type} [LinearOrder β] (asc : Bool) (x y : β) :
    cmp3 asc x y ≤ 0 ↔ (if asc then x ≤ y else y ≤ x) := by
  rcases lt_trichotomy x y with h | h | h
  · have h2 : ¬ y < x := lt_asymm h
    have h3 : ¬ y ≤ x := not_le.mpr h
    cases asc <;> simp [cmp3, h, h2, h3, le_of_lt h]
  · subst h
    cases asc <;> simp [cmp3]
  · have h2 : ¬ x < y := lt_asymm h
    have h3 : ¬ x ≤ y := not_le.mpr h
    cases asc <;> simp [cmp3, h, h2, h3, le_of_lt h]

theorem cmp3_neg {β : Type} [LinearOrder β] (asc : Bool) (x y : β) :
    cmp3 asc y x = -(cmp3 asc x y) := by
  rcases lt_trichotomy x y with h | h | h
  · have h2 : ¬ y < x := lt_asymm h
    cases asc <;> simp [cmp3, h, h2]
  · subst h
    cases asc <;> simp [cmp3]
  · have h2 : ¬ x < y := lt_asymm h
    cases asc <;> simp [cmp3, h, h2]

theorem cmp3_self {β : Type} [LinearOrder β] (asc : Bool) (x : β) :
    cmp3 asc x x = 0 := by
  simp [cmp3]

theorem cmp3_total {β : Type} [LinearOrder β] (asc : Bool) (x y : β) :
    cmp3 asc x y ≤ 0 ∨ cmp3 asc y x ≤ 0 := by
  rw [cmp3_le_iff, cmp3_le_iff]
  cases asc <;> simp <;> first | exact le_total x y | exact le_total y x

theorem cmp3_trans {β : Type} [LinearOrder β] (asc : Bool) (x y z : β)
    (h1 : cmp3 asc x y ≤ 0) (h2 : cmp3 asc y z ≤ 0) : cmp3 asc x z ≤ 0 := by
  rw [cmp3_le_iff] at h1 h2 ⊢
  cases asc <;> simp at h1 h2 ⊢ <;>
    first | exact le_trans h1 h2 | exact le_trans h2 h1

theorem cmpColumn_total (col : SortColumn) (asc : Bool) (a b : Entry) :
    cmpColumn col asc a b ≤ 0 ∨ cmpColumn col asc b a ≤ 0 := by
  cases col <;> simp only [cmpColumn] <;> exact cmp3_total asc _ _

theorem cmpColumn_trans (col : SortColumn) (asc : Bool) (a b c : Entry)
    (h1 : cmpColumn col asc a b ≤ 0) (h2 : cmpColumn col asc b c ≤ 0) :
    cmpColumn col asc a c ≤ 0 := by
  cases col <;> simp only [cmpColumn] at h1 h2 ⊢ <;>
    exact cmp3_trans asc _ _ _ h1 h2

theorem cmpColumn_neg (col : SortColumn) (asc : Bool) (a b : Entry) :
    cmpColumn col asc b a = -(cmpColumn col asc a b) := by
  cases col <;> simp only [cmpColumn] <;> exact cmp3_neg asc _ _

theorem compareWithFoldersFirst_false (col : SortColumn) (asc : Bool)
    (a b : Entry) :
    compareWithFoldersFirst col asc false a b = cmpColumn col asc a b := by
  simp [compareWithFoldersFirst]

/-- C6: the listing sort contract.  (a) With `foldersFirst` the combined
listing is the sorted folder group followed by the sorted file group: every
folder entry precedes every file entry and the column comparator is applied
only within each group.  (b) Without `foldersFirst` the groups are merged
into one comparator-sorted sequence in which a folder never follows a file
it ties with (the folders-first tiebreak is only secondary).  (c) The sort
is stable: any pairwise property of its input that only reordering ties
could destroy is preserved (ties keep their input order).  (d) The string
column compares case-insensitively.  (e) The size column uses a folder's
total size and a file's byte size.  (f) In the spec's concrete scenario,
`list_entries('sub', name, ascending, folders_first)` returns the folder
`deep` before the file `b.txt`. -/
theorem list_entries_sort_contract (col : SortColumn) (asc : Bool)
    (folderItems fileItems : List Entry)
    (hfo : ∀ e ∈ folderItems, e.isFolder = true)
    (hfi : ∀ e ∈ fileItems, e.isFolder = false) :
    (combineEntries col asc true folderItems fileItems
        = sortItems col asc folderItems ++ sortItems col asc fileItems
      ∧ (sortItems col asc folderItems).Perm folderItems
      ∧ (sortItems col asc fileItems).Perm fileItems
      ∧ (sortItems col asc folderItems).Pairwise
          (fun a b => cmpColumn col asc a b ≤ 0)
      ∧ (sortItems col asc fileItems).Pairwise
          (fun a b => cmpColumn col asc a b ≤ 0)
      ∧ (combineEntries col asc true folderItems fileItems).Pairwise
          (fun a b => b.isFolder = true → a.isFolder = true))
    ∧ ((combineEntries col asc false folderItems fileItems).Perm
          (folderItems ++ fileItems)
      ∧ (combineEntries col asc false folderItems fileItems).Pairwise
          (fun a b => cmpColumn col asc a b ≤ 0)
      ∧ (combineEntries col asc false folderItems fileItems).Pairwise
          (fun a b => cmpColumn col asc a b = 0 → a.isFolder = false →
            b.isFolder = true → False))
    ∧ (∀ Q : Entry → Entry → Prop,
        (∀ a b, cmpColumn col asc a b ≠ 0 → Q a b) →
        ∀ l : List Entry, l.Pairwise Q →
          (sortJS (compareWithFoldersFirst col asc false) l).Pairwise Q)
    ∧ (∀ a b : Entry, pyLower a.entryName = pyLower b.entryName →
        cmpColumn .nameCol asc a b = 0)
    ∧ (∀ (nm p : String) (fc ts : Nat),
        (Entry.folderE nm p fc ts).sizeKey = ts)
    ∧ (∀ f : FileRec, (Entry.fileE f).sizeKey = f.size_bytes)
    ∧ getFilesInline (build_directory_tree "root" scenarioFiles) ["sub"] {}
        = ([Entry.folderE "deep" "sub/deep" 1 5, Entry.fileE recB], 2) := by
  have hcf : ∀ a b : Entry,
      compareWithFoldersFirst col asc false a b = cmpColumn col asc a b :=
    compareWithFoldersFirst_false col asc
  have htot : ∀ x y : Entry,
      compareWithFoldersFirst col asc false x y ≤ 0 ∨
        compareWithFoldersFirst col asc false y x ≤ 0 := by
    intro x y
    rw [hcf, hcf]
    exact cmpColumn_total col asc x y
  have htrans : ∀ x y z : Entry,
      compareWithFoldersFirst col asc false x y ≤ 0 →
      compareWithFoldersFirst col asc false y z ≤ 0 →
      compareWithFoldersFirst col asc false x z ≤ 0 := by
    intro x y z h1 h2
    rw [hcf] at h1 h2 ⊢
    exact cmpColumn_trans col asc x y z h1 h2
  have convLe : ∀ l : List Entry,
      (l.Pairwise fun a b => compareWithFoldersFirst col asc false a b ≤ 0) →
      l.Pairwise fun a b => cmpColumn col asc a b ≤ 0 := by
    intro l h
    exact h.imp (fun hab => by rwa [hcf] at hab)
  have hstab : ∀ Q : Entry → Entry → Prop,
      (∀ a b, cmpColumn col asc a b ≠ 0 → Q a b) →
      ∀ l : List Entry, l.Pairwise Q →
        (sortJS (compareWithFoldersFirst col asc false) l).Pairwise Q := by
    intro Q hQ l hl
    refine sortJS_pairwiseQ _ Q ?_ l hl
    intro x y hxy
    apply hQ
    rw [hcf] at hxy
    have hneg := cmpColumn_neg col asc x y
    omega
  have hmemA : ∀ e ∈ sortItems col asc folderItems, e.isFolder = true :=
    fun e he => hfo e ((sortJS_perm _ folderItems).mem_iff.mp he)
  have hmemB : ∀ e ∈ sortItems col asc fileItems, e.isFolder = false :=
    fun e he => hfi e ((sortJS_perm _ fileItems).mem_iff.mp he)
  refine ⟨⟨rfl, sortJS_perm _ folderItems, sortJS_perm _ fileItems,
      convLe _ (sortJS_pairwise _ htot htrans folderItems),
      convLe _ (sortJS_pairwise _ htot htrans fileItems), ?_⟩,
    ⟨?_, ?_, ?_⟩, hstab, ?_, fun _ _ _ _ => rfl, fun _ => rfl, by decide⟩
  · show (sortItems col asc folderItems ++ sortItems col asc fileItems).Pairwise _
    apply List.pairwise_append.mpr
    refine ⟨?_, ?_, ?_⟩
    · exact List.pairwise_of_forall_mem_list fun a ha b _ _ => hmemA a ha
    · apply List.pairwise_of_forall_mem_list
      intro a _ b hb hbt
      rw [hmemB b hb] at hbt
      exact Bool.noConfusion hbt
    · intro a ha b _ _
      exact hmemA a ha
  · exact (sortJS_perm _ _).trans
      ((sortJS_perm _ folderItems).append (sortJS_perm _ fileItems))
  · exact convLe _ (sortJS_pairwise _ htot htrans _)
  · refine hstab _ (fun a b hne h0 _ _ => hne h0) _ ?_
    apply List.pairwise_append.mpr
    refine ⟨?_, ?_, ?_⟩
    · apply List.pairwise_of_forall_mem_list
      intro a ha b _ _ haf _
      rw [hmemA a ha] at haf
      exact Bool.noConfusion haf
    · apply List.pairwise_of_forall_mem_list
      intro a _ b hb _ _ hbt
      rw [hmemB b hb] at hbt
      exact Bool.noConfusion hbt
    · intro a ha b _ _ haf _
      rw [hmemA a ha] at haf
      exact Bool.noConfusion haf
  · intro a b h
    simp only [cmpColumn]
    rw [h]
    exact cmp3_self asc _

/-- Witness for `list_entries_sort_contract`: a one-folder, one-file
listing, with the concrete scenario extracted through the theorem. -/
theorem list_entries_sort_contract_witness :
    (∀ e ∈ ([Entry.folderE "d" "d" 3 7] : List Entry), e.isFolder = true)
    ∧ (∀ e ∈ ([Entry.fileE recA] : List Entry), e.isFolder = false)
    ∧ getFilesInline (build_directory_tree "root" scenarioFiles) ["sub"] {}
        = ([Entry.folderE "deep" "sub/deep" 1 5, Entry.fileE recB], 2) := by
  refine ⟨by decide, by decide, ?_⟩
  exact (list_entries_sort_contract .nameCol true [Entry.folderE "d" "d" 3 7]
    [Entry.fileE recA] (by decide) (by decide)).2.2.2.2.2.2
